import Mathlib

/-!
Shallow embedding of the svg drawing crate (pathfinder_svg): the style
cascade (`DrawOptions`), unit resolution, paint/clip resolution, the draw
dispatcher, bidi chunk layout and the compose entry points, translated from
`src/src/draw.rs`, `src/draw/src/lib.rs` and `src/draw/src/text/chunk.rs`.
`f32` values are modelled as `ℚ`; a Rust panic (`unwrap` on `None`,
`unimplemented!`) is modelled by the `PRes` result type.
-/

namespace SvgDraw

/-- Why a Rust panic happened: `unimplemented!()` or `Option::unwrap` on `None`. -/
inductive RustPanic where
  | unimplemented
  | unwrapFailed
deriving DecidableEq, Repr

/-- Result of running Rust code that may panic. -/
inductive PRes (α : Type) where
  | ok (value : α)
  | panic (why : RustPanic)
deriving DecidableEq, Repr

def PRes.bind {α β : Type} : PRes α → (α → PRes β) → PRes β
  | .ok a, f => f a
  | .panic p, _ => .panic p

instance : Monad PRes where
  pure := PRes.ok
  bind := PRes.bind

/-- `Option::unwrap`: panics on `None`. -/
def unwrapOpt {α : Type} : Option α → PRes α
  | some v => .ok v
  | none => .panic .unwrapFailed

/-- `pathfinder_geometry::vector::Vector2F` (components as `ℚ`). -/
structure Vec2 where
  x : ℚ
  y : ℚ
deriving DecidableEq, Repr

def vec2f (x y : ℚ) : Vec2 := ⟨x, y⟩

/-- `pathfinder_geometry::rect::RectF`: origin and size. -/
structure RectF where
  origin : Vec2
  size : Vec2
deriving DecidableEq, Repr

def RectF.width (r : RectF) : ℚ := r.size.x

def RectF.height (r : RectF) : ℚ := r.size.y

/-- `RectF::dilate`: grow by `w` on every side. -/
def RectF.dilate (r : RectF) (w : ℚ) : RectF :=
  ⟨⟨r.origin.x - w, r.origin.y - w⟩, ⟨r.size.x + 2 * w, r.size.y + 2 * w⟩⟩

/-- `pathfinder_geometry::transform2d::Transform2F`: a 2x2 matrix plus translation. -/
structure Transform2F where
  m11 : ℚ
  m12 : ℚ
  m21 : ℚ
  m22 : ℚ
  tx : ℚ
  ty : ℚ
deriving DecidableEq, Repr

/-- `Transform2F::default()`: the identity transform. -/
def Transform2F.default : Transform2F := ⟨1, 0, 0, 1, 0, 0⟩

/-- `Transform2F::from_scale` with a uniform scale. -/
def Transform2F.from_scale (s : ℚ) : Transform2F := ⟨s, 0, 0, s, 0, 0⟩

/-- `Transform2F::from_translation`. -/
def Transform2F.from_translation (v : Vec2) : Transform2F := ⟨1, 0, 0, 1, v.x, v.y⟩

/-- Apply an affine transform to a point. -/
def Transform2F.apply (t : Transform2F) (v : Vec2) : Vec2 :=
  ⟨t.m11 * v.x + t.m12 * v.y + t.tx, t.m21 * v.x + t.m22 * v.y + t.ty⟩

/-- Composition `a * b`: apply `b` first, then `a`. -/
def Transform2F.mul (a b : Transform2F) : Transform2F :=
  ⟨a.m11 * b.m11 + a.m12 * b.m21, a.m11 * b.m12 + a.m12 * b.m22,
   a.m21 * b.m11 + a.m22 * b.m21, a.m21 * b.m12 + a.m22 * b.m22,
   a.m11 * b.tx + a.m12 * b.ty + a.tx, a.m21 * b.tx + a.m22 * b.ty + a.ty⟩

instance : Mul Transform2F := ⟨Transform2F.mul⟩

/-- Minimum of two rationals, kept kernel-computable. -/
def qmin (a b : ℚ) : ℚ := if a ≤ b then a else b

/-- Maximum of two rationals, kept kernel-computable. -/
def qmax (a b : ℚ) : ℚ := if a ≤ b then b else a

/-- `Transform2F * RectF`: transform the four corners and take their bounding box. -/
def Transform2F.applyRect (t : Transform2F) (r : RectF) : RectF :=
  let p1 := t.apply r.origin
  let p2 := t.apply ⟨r.origin.x + r.size.x, r.origin.y⟩
  let p3 := t.apply ⟨r.origin.x, r.origin.y + r.size.y⟩
  let p4 := t.apply ⟨r.origin.x + r.size.x, r.origin.y + r.size.y⟩
  let xmin := qmin (qmin p1.x p2.x) (qmin p3.x p4.x)
  let ymin := qmin (qmin p1.y p2.y) (qmin p3.y p4.y)
  let xmax := qmax (qmax p1.x p2.x) (qmax p3.x p4.x)
  let ymax := qmax (qmax p1.y p2.y) (qmax p3.y p4.y)
  ⟨⟨xmin, ymin⟩, ⟨xmax - xmin, ymax - ymin⟩⟩

/-- `svgtypes::LengthUnit`. -/
inductive LengthUnit where
  | none
  | cm
  | em
  | ex
  | inch
  | mm
  | pc
  | percent
  | pt
  | px
deriving DecidableEq, Repr

/-- `svgtypes::Length`: a number with a unit. -/
structure Length where
  num : ℚ
  unit : LengthUnit
deriving DecidableEq, Repr

inductive Axis where
  | x
  | y
deriving DecidableEq, Repr

/-- `pathfinder_content::fill::FillRule`. -/
inductive FillRule where
  | winding
  | evenOdd
deriving DecidableEq, Repr

inductive LineCap where
  | butt
  | square
  | round
deriving DecidableEq, Repr

inductive LineJoin where
  | miter
  | bevel
deriving DecidableEq, Repr

/-- `pathfinder_content::stroke::StrokeStyle`. -/
structure StrokeStyle where
  line_width : ℚ
  line_cap : LineCap
  line_join : LineJoin
deriving DecidableEq, Repr

/-- An rgb color with a rational alpha channel. -/
structure ColorQ where
  r : ℕ
  g : ℕ
  b : ℕ
  alpha : ℚ
deriving DecidableEq, Repr

/-- Modelled from the spec: `paint.rs` (not under `src/`) — `color_u` combines
the color's own alpha with the ambient opacity passed by `resolve_paint`. -/
def ColorQ.color_u (c : ColorQ) (opacity : ℚ) : ColorQ :=
  { c with alpha := c.alpha * opacity }

/-- The crate's `Paint` attribute value: none, a solid color, or an id reference. -/
inductive Paint where
  | none
  | color (c : ColorQ)
  | ref (id : String)
deriving DecidableEq, Repr

/-- `Paint::black()`: opaque black, the initial fill. -/
def Paint.black : Paint := .color ⟨0, 0, 0, 1⟩

/-- Modelled from the spec: `paint.rs` (not under `src/`) — a paint is
visible unless it is `Paint::None`. -/
def Paint.is_visible : Paint → Bool
  | .none => false
  | .color _ => true
  | .ref _ => true

/-- A gradient stop: offset, color (with its own alpha). -/
structure Stop where
  offset : ℚ
  color : ColorQ
deriving DecidableEq, Repr

/-- A linear or radial gradient definition: stops plus a gradient-space transform. -/
structure Gradient where
  stops : List Stop
  transform : Transform2F
deriving DecidableEq, Repr

/-- A gradient as built for the renderer: stops with the ambient opacity
baked into the stop alpha, and the applied transform. -/
structure BuiltGradient where
  stops : List Stop
  transform : Transform2F
deriving DecidableEq, Repr

/-- `pathfinder_renderer::paint::Paint`: a resolved renderer paint. -/
inductive PaPaint where
  | color (c : ColorQ)
  | gradient (g : BuiltGradient)
deriving DecidableEq, Repr

/-- The crate's `ClipPathAttr`: no clip, or a reference to a clip-path definition. -/
inductive ClipPathAttr where
  | none
  | ref (id : String)
deriving DecidableEq, Repr

/-- A geometric outline, kept symbolic: a source outline, a transformed
outline, or a stroke-to-fill conversion (`OutlineStrokeToFill`). -/
inductive Outline where
  | base (id : ℕ)
  | transformed (o : Outline) (t : Transform2F)
  | strokeToFill (o : Outline) (style : StrokeStyle)
deriving DecidableEq, Repr

/-- Animation time (`animate::Time`), a single scalar. -/
abbrev Time : Type := ℚ

def Time.start : Time := (0 : ℚ)

/-- A pair of lengths (`svg_dom`'s `Vector`), e.g. a point or a size. -/
structure Vector where
  vx : Length
  vy : Length
deriving DecidableEq, Repr

/-- `svg_dom`'s `Rect`: x, y, width, height as lengths. -/
structure LengthRect where
  x : Length
  y : Length
  w : Length
  h : Length
deriving DecidableEq, Repr

def LengthRect.origin (r : LengthRect) : Vector := ⟨r.x, r.y⟩

def LengthRect.size (r : LengthRect) : Vector := ⟨r.w, r.h⟩

/-- Modelled from the spec: `attrs.rs` (not under `src/`) — the per-element
presentation attributes consumed by `DrawOptions::apply`, with animated
values already evaluated at the current time. Absent means inherit. -/
structure Attrs where
  clip_path : Option ClipPathAttr
  clip_rule : Option FillRule
  opacity : Option ℚ
  transform : Transform2F
  fill : Option Paint
  fill_rule : Option FillRule
  fill_opacity : Option ℚ
  stroke : Option Paint
  stroke_opacity : Option ℚ
  stroke_width : Option Length
deriving DecidableEq, Repr

/-- Attributes that specify nothing (inherit everything, identity transform). -/
def Attrs.empty : Attrs :=
  ⟨Option.none, Option.none, Option.none, Transform2F.default,
   Option.none, Option.none, Option.none, Option.none, Option.none, Option.none⟩

/-- The element tree (`Item` of `lib.rs`). Drawable shape content is kept
symbolic: a `path` carries its resolved outline and untransformed bounding
rect. Non-drawable definition items (gradients, clip paths) carry their data. -/
inductive Item where
  | path (rect : RectF) (outline : Outline) (attrs : Attrs)
  | g (attrs : Attrs) (children : List Item)
  | svgTag (view_box : Option LengthRect) (width : Option Length) (height : Option Length) (attrs : Attrs) (children : List Item)
  | linearGradient (grad : Gradient)
  | radialGradient (grad : Gradient)
  | clipPath (outline : Outline)
  | other

/-- The document: the named-item registry plus the root element. -/
structure Svg where
  named_items : List (String × Item)
  root : Item

/-- Registry lookup (`HashMap::get`, modelled as first match in an association list). -/
def lookupItem : List (String × Item) → String → Option Item
  | [], _ => Option.none
  | (k, v) :: rest, id => if k = id then some v else lookupItem rest id

/-- `DrawContext`: the document and the dpi (`DrawContext::new` sets 75.0). -/
structure DrawContext where
  svg : Svg
  dpi : ℚ

def DrawContext.new (svg : Svg) : DrawContext := ⟨svg, 75⟩

/-- `DrawContext::resolve`. -/
def DrawContext.resolve (ctx : DrawContext) (id : String) : Option Item :=
  lookupItem ctx.svg.named_items id

/-- `DrawOptions`: the cascading style snapshot threaded through the tree walk. -/
structure DrawOptions where
  ctx : DrawContext
  fill : Paint
  fill_rule : FillRule
  fill_opacity : ℚ
  stroke : Paint
  stroke_style : StrokeStyle
  stroke_opacity : ℚ
  opacity : ℚ
  transform : Transform2F
  clip_path : ClipPathAttr
  clip_rule : FillRule
  view_box : Option RectF
  time : Time

/-- `DrawOptions::new`: note the initial transform is `from_scale(10.)`. -/
def DrawOptions.new (ctx : DrawContext) : DrawOptions where
  ctx := ctx
  opacity := 1
  fill := Paint.black
  fill_rule := FillRule.evenOdd
  fill_opacity := 1
  stroke := Paint.none
  stroke_opacity := 1
  stroke_style := ⟨1, LineCap.butt, LineJoin.bevel⟩
  transform := Transform2F.from_scale 10
  clip_path := ClipPathAttr.none
  clip_rule := FillRule.evenOdd
  view_box := Option.none
  time := Time.start

/-- `DrawOptions::bounds`: the transformed rect, dilated by the line width
when a stroke is visible, `None` when neither fill nor stroke is visible. -/
def DrawOptions.bounds (o : DrawOptions) (rect : RectF) : Option RectF :=
  let has_fill := o.fill.is_visible && decide (0 < o.fill_opacity)
  let has_stroke := o.stroke.is_visible && decide (0 < o.stroke_opacity)
  if has_stroke then
    some (o.transform.applyRect (rect.dilate o.stroke_style.line_width))
  else if has_fill then
    some (o.transform.applyRect rect)
  else
    Option.none

/-- Modelled from the spec: `gradient.rs` (not under `src/`) — building a
gradient bakes the ambient opacity into each stop's alpha and applies the
gradient-space transform under the current transform. -/
def Gradient.build (g : Gradient) (o : DrawOptions) (opacity : ℚ) : BuiltGradient :=
  ⟨g.stops.map (fun s => { s with color := { s.color with alpha := s.color.alpha * opacity } }),
   o.transform * g.transform⟩

/-- `DrawOptions::resolve_paint`: a solid color always resolves (alpha
combined with `opacity * self.opacity`); a reference resolves only to a
linear or radial gradient; anything else resolves to `None`. -/
def DrawOptions.resolve_paint (o : DrawOptions) (paint : Paint) (opacity : ℚ) : Option PaPaint :=
  let opacity := opacity * o.opacity
  match paint with
  | .color c => some (PaPaint.color (c.color_u opacity))
  | .ref id =>
    match lookupItem o.ctx.svg.named_items id with
    | some (.linearGradient gradient) => some (PaPaint.gradient (gradient.build o opacity))
    | some (.radialGradient gradient) => some (PaPaint.gradient (gradient.build o opacity))
    | _ => Option.none
  | .none => Option.none

/-- `DrawOptions::apply`: derive the child style snapshot from the parent
and the element's attributes. The attribute accessors (`attrs.fill.get`,
`attrs.transform.get`) are modelled from the spec (`attrs.rs` is not under
`src/`): present overrides, absent inherits, transforms already evaluated. -/
def DrawOptions.apply (o : DrawOptions) (attrs : Attrs) : DrawOptions :=
  let stroke_style :=
    match attrs.stroke_width with
    | some length => { o.stroke_style with line_width := length.num }
    | _ => o.stroke_style
  { o with
    clip_path := attrs.clip_path.getD o.clip_path
    clip_rule := attrs.clip_rule.getD o.clip_rule
    opacity := o.opacity * attrs.opacity.getD 1
    transform := o.transform * attrs.transform
    fill := attrs.fill.getD o.fill
    fill_rule := attrs.fill_rule.getD o.fill_rule
    fill_opacity := attrs.fill_opacity.getD o.fill_opacity
    stroke := attrs.stroke.getD o.stroke
    stroke_style := stroke_style
    stroke_opacity := attrs.stroke_opacity.getD o.stroke_opacity }

/-- `DrawOptions::resolve_length`: absolute units scale by dpi-derived
factors, percent returns `None`, em/ex/pica hit `unimplemented!()`. -/
def DrawOptions.resolve_length (o : DrawOptions) (length : Length) : PRes (Option ℚ) :=
  match length.unit with
  | .none => .ok (some (length.num * 1))
  | .cm => .ok (some (length.num * (o.ctx.dpi * (1 / 2.54))))
  | .em => .panic .unimplemented
  | .ex => .panic .unimplemented
  | .inch => .ok (some (length.num * o.ctx.dpi))
  | .mm => .ok (some (length.num * (o.ctx.dpi * (1 / 25.4))))
  | .pc => .panic .unimplemented
  | .percent => .ok Option.none
  | .pt => .ok (some (length.num * (o.ctx.dpi * (1 / 75))))
  | .px => .ok (some (length.num * 1))

/-- `DrawOptions::resolve_length_along`: like `resolve_length`, except that
a percent length returns the view box's width (X axis) or height (Y axis)
when the view box is present — note the numeric value is not applied. -/
def DrawOptions.resolve_length_along (o : DrawOptions) (length : Length) (axis : Axis) : PRes (Option ℚ) :=
  match length.unit with
  | .none => .ok (some (length.num * 1))
  | .cm => .ok (some (length.num * (o.ctx.dpi * (1 / 2.54))))
  | .em => .panic .unimplemented
  | .ex => .panic .unimplemented
  | .inch => .ok (some (length.num * o.ctx.dpi))
  | .mm => .ok (some (length.num * (o.ctx.dpi * (1 / 25.4))))
  | .pc => .panic .unimplemented
  | .percent =>
    match axis with
    | .x => .ok (o.view_box.map RectF.width)
    | .y => .ok (o.view_box.map RectF.height)
  | .pt => .ok (some (length.num * (o.ctx.dpi * (1 / 75))))
  | .px => .ok (some (length.num * 1))

/-- `DrawOptions::resolve_vector`: resolves both axes and `unwrap`s each
result — an unresolved axis is a panic, not a skip. -/
def DrawOptions.resolve_vector (o : DrawOptions) (v : Vector) : PRes Vec2 :=
  PRes.bind (o.resolve_length_along v.vx Axis.x) (fun rx =>
    PRes.bind (unwrapOpt rx) (fun x =>
      PRes.bind (o.resolve_length_along v.vy Axis.y) (fun ry =>
        PRes.bind (unwrapOpt ry) (fun y =>
          PRes.ok (vec2f x y)))))

/-- `DrawOptions::resolve_rect`. -/
def DrawOptions.resolve_rect (o : DrawOptions) (rect : LengthRect) : PRes RectF := do
  let origin ← o.resolve_vector rect.origin
  let size ← o.resolve_vector rect.size
  pure ⟨origin, size⟩

/-- A draw path pushed into the scene: outline, paint id, fill rule
(`none` when `set_fill_rule` was not called) and optional clip path id. -/
structure DrawPath where
  outline : Outline
  paint : ℕ
  fill_rule : Option FillRule
  clip : Option ℕ
deriving DecidableEq, Repr

/-- A clip path registered with the scene. -/
structure ClipPathObj where
  outline : Outline
  fill_rule : FillRule
deriving DecidableEq, Repr

/-- `pathfinder_renderer::scene::Scene`: append-only lists of paints, clip
paths and draw paths, plus an optional view box. -/
structure Scene where
  paints : List PaPaint
  clips : List ClipPathObj
  draws : List DrawPath
  view_box : Option RectF
deriving DecidableEq, Repr

def Scene.new : Scene := ⟨[], [], [], Option.none⟩

/-- `Scene::push_paint`: returns the paint id. -/
def Scene.push_paint (s : Scene) (p : PaPaint) : ℕ × Scene :=
  (s.paints.length, { s with paints := s.paints ++ [p] })

/-- `Scene::push_clip_path`: returns the clip path id. -/
def Scene.push_clip_path (s : Scene) (c : ClipPathObj) : ℕ × Scene :=
  (s.clips.length, { s with clips := s.clips ++ [c] })

/-- `Scene::push_draw_path`. -/
def Scene.push_draw_path (s : Scene) (d : DrawPath) : Scene :=
  { s with draws := s.draws ++ [d] }

/-- `Scene::set_view_box`. -/
def Scene.set_view_box (s : Scene) (r : RectF) : Scene :=
  { s with view_box := some r }

/-- Modelled from the spec: `TagClipPath::build` (not under `src/`) — the
definition's geometry under the referencing node's cascade transform. -/
def TagClipPath.build (outline : Outline) (o : DrawOptions) : Outline :=
  Outline.transformed outline o.transform

/-- `DrawOptions::clip_path_id`: if the clip-path attribute references a
clip-path definition, build and register it; a missing or wrong-kind target
yields no clip (a logged warning in the source). -/
def DrawOptions.clip_path_id (o : DrawOptions) (scene : Scene) : Option ℕ × Scene :=
  match o.clip_path with
  | .ref id =>
    match o.ctx.resolve id with
    | some (.clipPath p) =>
      let outline := TagClipPath.build p o
      let clip_path : ClipPathObj := ⟨outline, o.clip_rule⟩
      let (cid, scene) := scene.push_clip_path clip_path
      (some cid, scene)
    | _ => (Option.none, scene)
  | .none => (Option.none, scene)

/-- `DrawOptions::draw`: derive the clip handle, then emit a fill draw path
if the fill paint resolves, then a stroke draw path if the stroke paint
resolves and the line width is positive. -/
def DrawOptions.draw (o : DrawOptions) (scene : Scene) (path : Outline) : Scene :=
  let (clip_path_id, scene) := o.clip_path_id scene
  let scene :=
    match o.resolve_paint o.fill o.fill_opacity with
    | some fill =>
      let outline := Outline.transformed path o.transform
      let (paint_id, scene) := scene.push_paint fill
      scene.push_draw_path ⟨outline, paint_id, some o.fill_rule, clip_path_id⟩
    | _ => scene
  match o.resolve_paint o.stroke o.stroke_opacity with
  | some stroke =>
    if 0 < o.stroke_style.line_width then
      let (paint_id, scene) := scene.push_paint stroke
      let stroked := Outline.strokeToFill path o.stroke_style
      scene.push_draw_path ⟨Outline.transformed stroked o.transform, paint_id, Option.none, clip_path_id⟩
    else scene
  | _ => scene

/-- `DrawOptions::apply_viewbox`: rescale and translate the transform so the
view box maps onto `size`, and set the current view box. -/
def DrawOptions.apply_viewbox (o : DrawOptions) (size : Vector) (view_box : LengthRect) : PRes DrawOptions := do
  let vb ← o.resolve_rect view_box
  let sz ← o.resolve_vector size
  let scale : Vec2 := ⟨(1 / vb.size.x) * sz.x, (1 / vb.size.y) * sz.y⟩
  pure { o with
    transform := o.transform
      * (⟨scale.x, 0, 0, scale.y, 0, 0⟩ : Transform2F)
      * Transform2F.from_translation ⟨-vb.origin.x, -vb.origin.y⟩
    view_box := some vb }

mutual

/-- The draw dispatch of `lib.rs`'s `draw_items!` macro. Per-tag bodies
(`path.rs`, `g.rs`, `svg.rs`) are not under `src/`; they are modelled from
the spec: apply the element's attributes to the cascade, draw the shape's
outline, recurse into children; nested documents apply their view box;
non-drawable items are no-ops. -/
def Item.draw_to : Item → Scene → DrawOptions → PRes Scene
  | .path _ outline attrs, scene, o => .ok ((o.apply attrs).draw scene outline)
  | .g attrs children, scene, o => drawList children scene (o.apply attrs)
  | .svgTag view_box width height attrs children, scene, o =>
    let o := o.apply attrs
    match view_box with
    | some vb =>
      PRes.bind (o.apply_viewbox ⟨width.getD vb.w, height.getD vb.h⟩ vb)
        (fun o2 => drawList children scene o2)
    | _ => drawList children scene o
  | .linearGradient _, scene, _ => .ok scene
  | .radialGradient _, scene, _ => .ok scene
  | .clipPath _, scene, _ => .ok scene
  | .other, scene, _ => .ok scene

def drawList : List Item → Scene → DrawOptions → PRes Scene
  | [], scene, _ => .ok scene
  | item :: rest, scene, o =>
    PRes.bind (item.draw_to scene o) (fun s => drawList rest s o)

end

/-- Union of two rects (for group bounds). -/
def RectF.union (a b : RectF) : RectF :=
  let xmin := qmin a.origin.x b.origin.x
  let ymin := qmin a.origin.y b.origin.y
  let xmax := qmax (a.origin.x + a.size.x) (b.origin.x + b.size.x)
  let ymax := qmax (a.origin.y + a.size.y) (b.origin.y + b.size.y)
  ⟨⟨xmin, ymin⟩, ⟨xmax - xmin, ymax - ymin⟩⟩

mutual

/-- The bounds dispatch of `lib.rs`'s `draw_items!` macro. Per-tag bodies
are not under `src/`; modelled from the spec: a shape's bounds come from
`DrawOptions::bounds` under the applied cascade, groups take the union of
present child bounds, non-drawable items have none. -/
def Item.bounds : Item → DrawOptions → Option RectF
  | .path rect _ attrs, o => (o.apply attrs).bounds rect
  | .g attrs children, o => boundsList children (o.apply attrs)
  | .svgTag _ _ _ attrs children, o => boundsList children (o.apply attrs)
  | .linearGradient _, _ => Option.none
  | .radialGradient _, _ => Option.none
  | .clipPath _, _ => Option.none
  | .other, _ => Option.none

def boundsList : List Item → DrawOptions → Option RectF
  | [], _ => Option.none
  | item :: rest, o =>
    match item.bounds o, boundsList rest o with
    | some a, some b => some (a.union b)
    | some a, _ => some a
    | _, some b => some b
    | _, _ => Option.none

end

/-- `DrawSvg`: the compose entry points (text features omitted). -/
structure DrawSvg where
  svg : Svg

/-- `DrawSvg::ctx` (`DrawContext::new_without_fonts`: dpi 75, no fonts). -/
def DrawSvg.ctx (d : DrawSvg) : DrawContext := DrawContext.new d.svg

/-- Modelled from the spec: `Vector`'s `Resolve::try_resolve` (`resolve.rs`
is not under `src/`) — resolves both axes, `None` when either axis is
unresolved (used by `view_box`, where percent sizes degrade to bounds). -/
def tryResolveVector (o : DrawOptions) (v : Vector) : Option Vec2 :=
  match o.resolve_length_along v.vx Axis.x, o.resolve_length_along v.vy Axis.y with
  | .ok (some x), .ok (some y) => some (vec2f x y)
  | _, _ => Option.none

/-- `DrawSvg::view_box`: the explicit document view box when resolvable,
otherwise the root element's own bounds, measured with a fresh
`DrawOptions::new`. -/
def DrawSvg.view_box (d : DrawSvg) : Option RectF :=
  let ctx := d.ctx
  let options := DrawOptions.new ctx
  match d.svg.root with
  | .svgTag (some r) width height _ _ =>
    match tryResolveVector options ⟨width.getD r.w, height.getD r.h⟩ with
    | some size => some ⟨⟨0, 0⟩, size⟩
    | _ => d.svg.root.bounds options
  | _ => d.svg.root.bounds options

/-- `DrawSvg::compose_with_options`: fresh scene, register the computed view
box under the options' transform, draw the root. -/
def DrawSvg.compose_with_options (d : DrawSvg) (options : DrawOptions) : PRes Scene :=
  let scene := Scene.new
  let scene :=
    match d.view_box with
    | some vb => scene.set_view_box (options.transform.applyRect vb)
    | _ => scene
  d.svg.root.draw_to scene options

/-- `DrawSvg::compose_with_transform`: fresh `DrawOptions` with the transform
replaced by the caller's. -/
def DrawSvg.compose_with_transform (d : DrawSvg) (transform : Transform2F) : PRes Scene :=
  let ctx := d.ctx
  let options := { DrawOptions.new ctx with transform := transform }
  d.compose_with_options options

/-- `DrawSvg::compose`: identity device transform. -/
def DrawSvg.compose (d : DrawSvg) : PRes Scene :=
  d.compose_with_transform Transform2F.default

/-- `DrawSvg::compose_with_viewbox`: fresh `DrawOptions` (transform left at
its `from_scale(10.)` default), scene view box set to the transformed
caller-supplied view box, root drawn with those options. -/
def DrawSvg.compose_with_viewbox (d : DrawSvg) (view_box : RectF) : PRes Scene :=
  let ctx := d.ctx
  let options := DrawOptions.new ctx
  let scene := Scene.new.set_view_box (options.transform.applyRect view_box)
  d.svg.root.draw_to scene options

/-- A shaped run layout as returned by the font collection; only the
advance-width metric matters here (`layout.metrics.advance`). -/
structure Layout where
  advance : ℚ
deriving DecidableEq, Repr

/-- The external font-shaping collaborator: text plus an is-rtl flag to a
shaped layout (`FontCollection::layout_run`). -/
structure FontCollection where
  layout_run : String → Bool → Layout

/-- A bidi level run's byte range within the chunk text. -/
structure Run where
  start : ℕ
  stop : ℕ
deriving DecidableEq, Repr

/-- `&self.text[run]` (Rust byte ranges are modelled as character ranges;
the claims only depend on the shaped advances, not the slicing units). -/
def sliceRun (text : String) (r : Run) : String :=
  ((text.toList.drop r.start).take (r.stop - r.start)).asString

/-- `Chunk`: the text and its visual runs, each tagged with `level.is_rtl()`. -/
structure Chunk where
  text : String
  runs : List (Bool × Run)

/-- `ChunkLayout`: per run a starting byte offset, a placed horizontal
offset and the shaped layout; plus the total signed advance. -/
structure ChunkLayout where
  parts : List (ℕ × ℚ × Layout)
  advance : ℚ
deriving DecidableEq, Repr

/-- The loop body of `Chunk::layout`: accumulate a signed offset over the
runs, placing ltr runs at the cursor (cursor moves right by the advance)
and rtl runs at cursor minus advance (cursor moves left by the advance). -/
def layoutLoop (text : String) (font : FontCollection) :
    List (Bool × Run) → ℚ → List (ℕ × ℚ × Layout) → ChunkLayout
  | [], offset, parts => ⟨parts, offset⟩
  | (level, run) :: rest, offset, parts =>
    let layout := font.layout_run (sliceRun text run) level
    let advance := layout.advance
    let (run_offset, next_offset) :=
      match level with
      | false => (offset, offset + advance)
      | true => (offset - advance, offset - advance)
    layoutLoop text font rest next_offset (parts ++ [(run.start, run_offset, layout)])

/-- `Chunk::layout`. -/
def Chunk.layout (c : Chunk) (font : FontCollection) : ChunkLayout :=
  layoutLoop c.text font c.runs 0 []

/-- The placement rule in the spec's words: given each run's direction and
shaped advance, a ltr run is placed at the current offset and the offset
advances forward by the run's advance; a rtl run is placed at the current
offset minus its advance and the offset moves backward by that advance; the
final offset is the total advance. -/
def placeRunsSpec : List (Bool × ℚ) → ℚ → List ℚ × ℚ
  | [], offset => ([], offset)
  | (rtl, adv) :: rest, offset =>
    if rtl then
      let p := placeRunsSpec rest (offset - adv)
      ((offset - adv) :: p.1, p.2)
    else
      let p := placeRunsSpec rest (offset + adv)
      (offset :: p.1, p.2)

/-! Concrete documents and contexts used to evaluate the development. -/

def svg0 : Svg := ⟨[], Item.other⟩

def ctx0 : DrawContext := DrawContext.new svg0

def opts0 : DrawOptions := DrawOptions.new ctx0

def optsVB : DrawOptions := { opts0 with view_box := some ⟨⟨0, 0⟩, ⟨200, 100⟩⟩ }

def optsFS : DrawOptions := { opts0 with stroke := Paint.black }

def dsvg0 : DrawSvg := ⟨svg0⟩

def grad0 : Gradient := ⟨[⟨0, ⟨255, 0, 0, 1⟩⟩, ⟨1, ⟨0, 0, 255, 1⟩⟩], Transform2F.default⟩

def svgGrad : Svg := ⟨[("grad", Item.linearGradient grad0)], Item.other⟩

def optsGrad : DrawOptions := DrawOptions.new (DrawContext.new svgGrad)

def svgUnit : Svg := ⟨[], Item.path ⟨⟨0, 0⟩, ⟨1, 1⟩⟩ (Outline.base 0) Attrs.empty⟩

def font10 : FontCollection := ⟨fun _ _ => ⟨10⟩⟩

/-- The draw paths the fill channel appends, given the clip handle and the
next paint id. -/
def fillOps (o : DrawOptions) (path : Outline) (cid : Option ℕ) (base : ℕ) : List DrawPath :=
  match o.resolve_paint o.fill o.fill_opacity with
  | some _ => [⟨Outline.transformed path o.transform, base, some o.fill_rule, cid⟩]
  | _ => []

/-- The draw paths the stroke channel appends, given the clip handle and the
next paint id. -/
def strokeOps (o : DrawOptions) (path : Outline) (cid : Option ℕ) (base : ℕ) : List DrawPath :=
  match o.resolve_paint o.stroke o.stroke_opacity with
  | some _ =>
    if 0 < o.stroke_style.line_width then
      [⟨Outline.transformed (Outline.strokeToFill path o.stroke_style) o.transform, base, Option.none, cid⟩]
    else []
  | _ => []

/-- Unfolding lemma for the `Mul` instance on transforms. -/
theorem Transform2F.mul_def (a b : Transform2F) : a * b = Transform2F.mul a b := rfl

/-- `clip_path_id` only registers clip paths: draws and paints are untouched. -/
theorem clip_path_id_preserves (o : DrawOptions) (scene : Scene) :
    ((o.clip_path_id scene).2).draws = scene.draws ∧
    ((o.clip_path_id scene).2).paints = scene.paints := by
  unfold DrawOptions.clip_path_id
  rcases o.clip_path with _ | id
  · exact ⟨rfl, rfl⟩
  · rcases h : o.ctx.resolve id with _ | item
    · simp [h]
    · cases item <;> simp [h, Scene.push_clip_path]

/-- What `DrawOptions::draw` appends to the scene's draw-path list. -/
theorem draw_draws_eq (o : DrawOptions) (scene : Scene) (path : Outline) :
    (o.draw scene path).draws =
      scene.draws
        ++ fillOps o path (o.clip_path_id scene).1 scene.paints.length
        ++ strokeOps o path (o.clip_path_id scene).1
             (scene.paints.length
               + (fillOps o path (o.clip_path_id scene).1 scene.paints.length).length) := by
  obtain ⟨hd, hp⟩ := clip_path_id_preserves o scene
  unfold DrawOptions.draw fillOps strokeOps
  rcases hc : o.clip_path_id scene with ⟨cid, scene1⟩
  rw [hc] at hd hp
  simp only at hd hp
  cases hf : o.resolve_paint o.fill o.fill_opacity <;>
    cases hs : o.resolve_paint o.stroke o.stroke_opacity <;>
      by_cases hw : 0 < o.stroke_style.line_width <;>
        simp [hw, Scene.push_paint, Scene.push_draw_path, hd, hp]

/-- C7: for every length with DPI d, `resolve_length` returns d times the
numeric value for inch, d/2.54 times it for cm, d/25.4 times it for mm,
d/75 times it for pt, and the raw numeric value for unit-less and pixel
lengths. -/
theorem resolve_length_unit_factors (o : DrawOptions) (n : ℚ) :
    o.resolve_length ⟨n, .inch⟩ = .ok (some (o.ctx.dpi * n)) ∧
    o.resolve_length ⟨n, .cm⟩ = .ok (some (o.ctx.dpi / 2.54 * n)) ∧
    o.resolve_length ⟨n, .mm⟩ = .ok (some (o.ctx.dpi / 25.4 * n)) ∧
    o.resolve_length ⟨n, .pt⟩ = .ok (some (o.ctx.dpi / 75 * n)) ∧
    o.resolve_length ⟨n, .none⟩ = .ok (some n) ∧
    o.resolve_length ⟨n, .px⟩ = .ok (some n) := by
  refine ⟨?_, ?_, ?_, ?_, ?_, ?_⟩ <;>
    simp only [DrawOptions.resolve_length, PRes.ok.injEq, Option.some.injEq] <;>
      ring_nf

/-- C8: for every length whose unit is em, ex, or pica, `resolve_length` and
`resolve_length_along` panic (`unimplemented!`), never returning a value —
a failure distinct from the recoverable `None` of an unresolved percentage. -/
theorem resolve_length_unsupported_units_panic (o : DrawOptions) (l : Length) (axis : Axis)
    (h : l.unit = .em ∨ l.unit = .ex ∨ l.unit = .pc) :
    o.resolve_length l = .panic .unimplemented ∧
    o.resolve_length_along l axis = .panic .unimplemented := by
  obtain ⟨n, u⟩ := l
  rcases h with h | h | h <;> (simp only at h; subst h) <;>
    exact ⟨rfl, by cases axis <;> rfl⟩

theorem resolve_length_unsupported_units_panic_witness :
    ((⟨1, .em⟩ : Length).unit = .em ∨ (⟨1, .em⟩ : Length).unit = .ex ∨
      (⟨1, .em⟩ : Length).unit = .pc) ∧
    (opts0.resolve_length ⟨1, .em⟩ = .panic .unimplemented ∧
     opts0.resolve_length_along ⟨1, .em⟩ Axis.x = .panic .unimplemented) :=
  ⟨Or.inl rfl, resolve_length_unsupported_units_panic opts0 ⟨1, .em⟩ Axis.x (Or.inl rfl)⟩

/-- C1 (evaluation at the failing input): a percent length with no view box
resolves to `None` on both axes, as claimed; but with a view box of width
200 and height 100, a 50% length resolves to the raw view-box width 200
along X and the raw height 100 along Y — the numeric value 50 is ignored,
where the claim expects 100 and 50. -/
theorem percent_resolution_ignores_numeric_value :
    opts0.resolve_length_along ⟨50, .percent⟩ Axis.x = .ok Option.none ∧
    opts0.resolve_length_along ⟨50, .percent⟩ Axis.y = .ok Option.none ∧
    optsVB.resolve_length_along ⟨50, .percent⟩ Axis.x = .ok (some 200) ∧
    optsVB.resolve_length_along ⟨50, .percent⟩ Axis.y = .ok (some 100) :=
  ⟨rfl, rfl, by decide, by decide⟩

/-- C2: `apply` overrides clip-path, clip-rule, fill paint, fill-rule,
fill-opacity, stroke paint, stroke-opacity, and the stroke-style line width
with the attribute's value when present and inherits the parent's value
when absent (cap and join inherit wholesale); opacity is the parent's
opacity times the attribute opacity (1 when absent); the transform is the
inherited transform composed with the local one, in that order; context,
view box and time are inherited unchanged. -/
theorem apply_cascade_rules (o : DrawOptions) (attrs : Attrs) :
    (o.apply attrs).clip_path = attrs.clip_path.getD o.clip_path ∧
    (o.apply attrs).clip_rule = attrs.clip_rule.getD o.clip_rule ∧
    (o.apply attrs).fill = attrs.fill.getD o.fill ∧
    (o.apply attrs).fill_rule = attrs.fill_rule.getD o.fill_rule ∧
    (o.apply attrs).fill_opacity = attrs.fill_opacity.getD o.fill_opacity ∧
    (o.apply attrs).stroke = attrs.stroke.getD o.stroke ∧
    (o.apply attrs).stroke_opacity = attrs.stroke_opacity.getD o.stroke_opacity ∧
    (o.apply attrs).stroke_style.line_width
      = (attrs.stroke_width.map Length.num).getD o.stroke_style.line_width ∧
    (o.apply attrs).stroke_style.line_cap = o.stroke_style.line_cap ∧
    (o.apply attrs).stroke_style.line_join = o.stroke_style.line_join ∧
    (o.apply attrs).opacity = o.opacity * attrs.opacity.getD 1 ∧
    (o.apply attrs).transform = o.transform * attrs.transform ∧
    (o.apply attrs).ctx = o.ctx ∧
    (o.apply attrs).view_box = o.view_box ∧
    (o.apply attrs).time = o.time := by
  unfold DrawOptions.apply
  cases h : attrs.stroke_width <;> simp [h]

/-- C3: when both paints resolve and the stroke width is positive, `draw`
appends exactly a fill path followed by a stroke path — the fill carries the
cascade's fill rule, the stroke carries no fill rule, both carry the clip
handle computed once; and when the stroke paint does not resolve or the
width is not positive, only the fill channel's paths are appended. -/
theorem draw_fill_stroke_order :
    (∀ (o : DrawOptions) (scene : Scene) (path : Outline),
      (o.resolve_paint o.fill o.fill_opacity).isSome = true →
      (o.resolve_paint o.stroke o.stroke_opacity).isSome = true →
      0 < o.stroke_style.line_width →
      (o.draw scene path).draws = scene.draws ++
        [⟨Outline.transformed path o.transform, scene.paints.length,
          some o.fill_rule, (o.clip_path_id scene).1⟩,
         ⟨Outline.transformed (Outline.strokeToFill path o.stroke_style) o.transform,
          scene.paints.length + 1, Option.none, (o.clip_path_id scene).1⟩]) ∧
    (∀ (o : DrawOptions) (scene : Scene) (path : Outline),
      (o.resolve_paint o.stroke o.stroke_opacity = Option.none ∨
        o.stroke_style.line_width ≤ 0) →
      (o.draw scene path).draws
        = scene.draws ++ fillOps o path (o.clip_path_id scene).1 scene.paints.length) := by
  constructor
  · intro o scene path hf hs hw
    rcases Option.isSome_iff_exists.mp hf with ⟨f, hf2⟩
    rcases Option.isSome_iff_exists.mp hs with ⟨s, hs2⟩
    rw [draw_draws_eq]
    simp [fillOps, strokeOps, hf2, hs2, hw]
  · intro o scene path h
    rw [draw_draws_eq]
    rcases h with h | h
    · simp [strokeOps, h]
    · have hw : ¬ 0 < o.stroke_style.line_width := not_lt.mpr h
      cases hs : o.resolve_paint o.stroke o.stroke_opacity <;>
        simp [strokeOps, hs, hw]

theorem draw_fill_stroke_order_witness :
    (optsFS.resolve_paint optsFS.fill optsFS.fill_opacity).isSome = true ∧
    (optsFS.resolve_paint optsFS.stroke optsFS.stroke_opacity).isSome = true ∧
    0 < optsFS.stroke_style.line_width ∧
    (optsFS.draw Scene.new (Outline.base 0)).draws = Scene.new.draws ++
      [⟨Outline.transformed (Outline.base 0) optsFS.transform, Scene.new.paints.length,
        some optsFS.fill_rule, (optsFS.clip_path_id Scene.new).1⟩,
       ⟨Outline.transformed (Outline.strokeToFill (Outline.base 0) optsFS.stroke_style) optsFS.transform,
        Scene.new.paints.length + 1, Option.none, (optsFS.clip_path_id Scene.new).1⟩] :=
  ⟨by decide, by decide, by decide,
    draw_fill_stroke_order.1 optsFS Scene.new (Outline.base 0) (by decide) (by decide) (by decide)⟩

/-- C4: a solid color paint always resolves, with alpha the color's own
alpha times the channel opacity times the cascade opacity; a reference
resolves to a built gradient exactly when the id names a linear or radial
gradient; a missing id or any other target kind resolves to `None`, and a
non-resolving fill channel merely skips its draw path (the stroke channel
and the rest of the scene are unaffected, no error). -/
theorem resolve_paint_channels (o : DrawOptions) (c : ColorQ) (id : String) (opacity : ℚ) :
    o.resolve_paint (.color c) opacity
      = some (PaPaint.color ⟨c.r, c.g, c.b, c.alpha * (opacity * o.opacity)⟩) ∧
    (∀ g, lookupItem o.ctx.svg.named_items id = some (.linearGradient g) →
      o.resolve_paint (.ref id) opacity
        = some (PaPaint.gradient (g.build o (opacity * o.opacity)))) ∧
    (∀ g, lookupItem o.ctx.svg.named_items id = some (.radialGradient g) →
      o.resolve_paint (.ref id) opacity
        = some (PaPaint.gradient (g.build o (opacity * o.opacity)))) ∧
    (lookupItem o.ctx.svg.named_items id = Option.none →
      o.resolve_paint (.ref id) opacity = Option.none) ∧
    (∀ it, lookupItem o.ctx.svg.named_items id = some it →
      (∀ g, it ≠ Item.linearGradient g) → (∀ g, it ≠ Item.radialGradient g) →
      o.resolve_paint (.ref id) opacity = Option.none) ∧
    (∀ (scene : Scene) (path : Outline),
      o.resolve_paint o.fill o.fill_opacity = Option.none →
      (o.draw scene path).draws
        = scene.draws ++ strokeOps o path (o.clip_path_id scene).1 scene.paints.length) := by
  refine ⟨rfl, ?_, ?_, ?_, ?_, ?_⟩
  · intro g hg
    simp [DrawOptions.resolve_paint, hg]
  · intro g hg
    simp [DrawOptions.resolve_paint, hg]
  · intro h
    simp [DrawOptions.resolve_paint, h]
  · intro it hit h1 h2
    cases it <;> simp [DrawOptions.resolve_paint, hit]
    · exact h1 _ rfl
    · exact h2 _ rfl
  · intro scene path hf
    rw [draw_draws_eq]
    simp [fillOps, hf]

theorem resolve_paint_channels_witness :
    lookupItem optsGrad.ctx.svg.named_items "grad" = some (Item.linearGradient grad0) ∧
    optsGrad.resolve_paint (Paint.ref "grad") 1
      = some (PaPaint.gradient (grad0.build optsGrad (1 * optsGrad.opacity))) :=
  ⟨rfl, (resolve_paint_channels optsGrad ⟨0, 0, 0, 1⟩ "grad" 1).2.1 grad0 rfl⟩

/-- C5 counterexample: with no view box, `resolve_vector` on a 50% length
for each axis panics (`unwrap` on `None`) — the unresolved percentage is
not propagated as "feature absent" by this caller. -/
theorem resolve_vector_percent_no_viewbox_panics :
    opts0.resolve_vector ⟨⟨50, .percent⟩, ⟨50, .percent⟩⟩ = .panic .unwrapFailed := by
  decide

/-- C5 amended: whenever the X length is a percentage and the current view
box is absent, `resolve_vector` panics via `unwrap` — the unresolvable
length aborts the resolution call instead of being skipped. -/
theorem resolve_vector_unwrap_panics (o : DrawOptions) (x y : Length)
    (hvb : o.view_box = Option.none) (hx : x.unit = .percent) :
    o.resolve_vector ⟨x, y⟩ = .panic .unwrapFailed := by
  obtain ⟨n, u⟩ := x
  simp only at hx
  subst hx
  simp [DrawOptions.resolve_vector, DrawOptions.resolve_length_along, hvb,
    unwrapOpt, PRes.bind]

theorem resolve_vector_unwrap_panics_witness :
    opts0.view_box = Option.none ∧
    (⟨50, .percent⟩ : Length).unit = .percent ∧
    opts0.resolve_vector ⟨⟨50, .percent⟩, ⟨0, .px⟩⟩ = .panic .unwrapFailed :=
  ⟨rfl, rfl, resolve_vector_unwrap_panics opts0 ⟨50, .percent⟩ ⟨0, .px⟩ rfl rfl⟩

/-- C9: composing is a deterministic function of the document, the
transform and the options (the animation time is fixed to `Time.start` by
`DrawOptions::new` and carried inside the options): equal inputs give equal
scenes. The embedding is pure because the source's tree walk reads only the
immutable context and appends to its own scene. -/
theorem compose_deterministic (d : DrawSvg) (t1 t2 : Transform2F) (h : t1 = t2) :
    d.compose_with_transform t1 = d.compose_with_transform t2 ∧
    (∀ o1 o2 : DrawOptions, o1 = o2 →
      d.compose_with_options o1 = d.compose_with_options o2) := by
  subst h
  exact ⟨rfl, fun o1 o2 ho => by rw [ho]⟩

theorem compose_deterministic_witness :
    Transform2F.default = Transform2F.default ∧
    (dsvg0.compose_with_transform Transform2F.default
        = dsvg0.compose_with_transform Transform2F.default ∧
      (∀ o1 o2 : DrawOptions, o1 = o2 →
        dsvg0.compose_with_options o1 = dsvg0.compose_with_options o2)) :=
  ⟨rfl, compose_deterministic dsvg0 Transform2F.default Transform2F.default rfl⟩

/-- C10: `DrawOptions::new` initializes the transform to `from_scale(10.)`,
which is not the identity; `compose_with_viewbox` registers the scene view
box and draws the root under a fresh `DrawOptions::new` whose transform is
that scale-10; `view_box()` measures bounds under the same fresh options
(the unit-square document measures as a 10 by 10 view box); while
`compose_with_transform` replaces the transform with the caller's. -/
theorem new_transform_is_scale_ten :
    (∀ ctx : DrawContext, (DrawOptions.new ctx).transform = Transform2F.from_scale 10) ∧
    Transform2F.from_scale 10 = ⟨10, 0, 0, 10, 0, 0⟩ ∧
    Transform2F.default = ⟨1, 0, 0, 1, 0, 0⟩ ∧
    (∀ (d : DrawSvg) (vb : RectF),
      d.compose_with_viewbox vb
        = Item.draw_to d.svg.root
            (Scene.new.set_view_box ((Transform2F.from_scale 10).applyRect vb))
            (DrawOptions.new d.ctx)) ∧
    (∀ (d : DrawSvg) (t : Transform2F),
      d.compose_with_transform t
        = d.compose_with_options { DrawOptions.new d.ctx with transform := t }) ∧
    DrawSvg.view_box ⟨svgUnit⟩ = some ⟨⟨0, 0⟩, ⟨10, 10⟩⟩ := by
  refine ⟨fun _ => rfl, rfl, rfl, fun d vb => rfl, fun d t => rfl, ?_⟩
  norm_num [DrawSvg.view_box, DrawSvg.ctx, svgUnit, Item.bounds, DrawOptions.apply,
    Attrs.empty, DrawOptions.bounds, DrawOptions.new, DrawContext.new, Paint.black,
    Paint.is_visible, Transform2F.applyRect, Transform2F.apply,
    Transform2F.from_scale, Transform2F.default, Transform2F.mul_def,
    Transform2F.mul, qmin, qmax]

/-- The accumulation invariant of `Chunk::layout`'s loop against the spec's
placement rule, generalized over the starting offset and accumulator. -/
theorem layoutLoop_places (text : String) (font : FontCollection)
    (runs : List (Bool × Run)) :
    ∀ (offset : ℚ) (parts : List (ℕ × ℚ × Layout)),
      ((layoutLoop text font runs offset parts).parts.map (fun p => p.2.1)
        = parts.map (fun p => p.2.1)
          ++ (placeRunsSpec
              (runs.map (fun lr => (lr.1, (font.layout_run (sliceRun text lr.2) lr.1).advance)))
              offset).1) ∧
      ((layoutLoop text font runs offset parts).advance
        = (placeRunsSpec
            (runs.map (fun lr => (lr.1, (font.layout_run (sliceRun text lr.2) lr.1).advance)))
            offset).2) ∧
      ((layoutLoop text font runs offset parts).parts.map (fun p => p.1)
        = parts.map (fun p => p.1) ++ runs.map (fun lr => lr.2.start)) := by
  induction runs with
  | nil =>
    intro offset parts
    simp [layoutLoop, placeRunsSpec]
  | cons head rest ih =>
    intro offset parts
    obtain ⟨level, run⟩ := head
    cases level
    · have h := ih (offset + (font.layout_run (sliceRun text run) false).advance)
        (parts ++ [(run.start, offset, font.layout_run (sliceRun text run) false)])
      simp [layoutLoop, placeRunsSpec] at h ⊢
      exact ⟨h.1, h.2.1, h.2.2⟩
    · have h := ih (offset - (font.layout_run (sliceRun text run) true).advance)
        (parts ++ [(run.start, offset - (font.layout_run (sliceRun text run) true).advance,
          font.layout_run (sliceRun text run) true)])
      simp [layoutLoop, placeRunsSpec] at h ⊢
      exact ⟨h.1, h.2.1, h.2.2⟩

/-- C6: `Chunk::layout` places runs exactly as the spec's signed-offset
accumulation rule prescribes, starting at offset 0, keeps each run's start
byte, and its total advance is the final offset; in particular a single
left-to-right run of advance 10 lands at offset 0 with total advance 10 and
a single right-to-left run of advance 10 lands at -10 with total advance -10. -/
theorem chunk_layout_bidi_placement (c : Chunk) (font : FontCollection) :
    ((c.layout font).parts.map (fun p => p.2.1)
      = (placeRunsSpec
          (c.runs.map (fun lr => (lr.1, (font.layout_run (sliceRun c.text lr.2) lr.1).advance)))
          0).1) ∧
    ((c.layout font).advance
      = (placeRunsSpec
          (c.runs.map (fun lr => (lr.1, (font.layout_run (sliceRun c.text lr.2) lr.1).advance)))
          0).2) ∧
    ((c.layout font).parts.map (fun p => p.1) = c.runs.map (fun lr => lr.2.start)) ∧
    Chunk.layout ⟨"ab", [(false, ⟨0, 2⟩)]⟩ font10 = ⟨[(0, 0, ⟨10⟩)], 10⟩ ∧
    Chunk.layout ⟨"ab", [(true, ⟨0, 2⟩)]⟩ font10 = ⟨[(0, -10, ⟨10⟩)], -10⟩ := by
  have h := layoutLoop_places c.text font c.runs 0 []
  refine ⟨by simpa using h.1, h.2.1, by simpa using h.2.2, ?_, ?_⟩ <;>
    norm_num [Chunk.layout, layoutLoop, font10]

end SvgDraw
